import Mathlib

/-!
Shallow embedding of `src/mod.ts` (karanokuri/karanofetch.ts): a typed
request-building layer over a fetch-like transport.  The embedding models

* the JS string operations used by the source (`String.prototype.includes`
  and `String.prototype.replace` with a plain string pattern, i.e. first
  occurrence only),
* the placeholder scan `endpoint.match(/:([^\/]*)/g)` of
  `assertHasAllParams`,
* the `URL` object as the pair of its pathname and its search parameter
  list (the source only ever touches `url.pathname` and
  `url.searchParams`; scheme and host come from the base URL and are
  never read or written afterwards, so they are omitted),
* the bound request function returned by `Fetcher.fetch` as an explicit
  state transformer on the captured `URL` value: the source creates one
  `URL` object per `Fetcher.fetch` call and the returned closure mutates
  it in place, which the embedding renders by threading the `Url` value
  through invocations.

Records that the source manipulates as plain JS objects (the resolved
parameter mapping, `RequestInit`) are modelled as association lists in
insertion order.  The JS `key in params` test consults the prototype
chain: for the plain objects produced by the registered transforms it is
true exactly when `key` is an own key of the mapping or a property name
inherited from `Object.prototype`; the embedding models both parts.
-/

namespace Karanofetch

/-- Splits a character list at the first occurrence of a pattern: returns
the part before the first occurrence and the part after it, or `none`
when the pattern does not occur.  This is the common core of the JS
`String.prototype.includes` and single-string `String.prototype.replace`
used by the source. -/
def splitFirstAux (pat : List Char) : List Char → Option (List Char × List Char)
  | [] => if pat.isEmpty then some ([], []) else none
  | c :: cs =>
    if pat.isPrefixOf (c :: cs) then some ([], (c :: cs).drop pat.length)
    else (splitFirstAux pat cs).map (fun pr => (c :: pr.1, pr.2))

/-- Model of JS `s.includes(pat)`: does `pat` occur as a substring of `s`? -/
def includesStr (pat s : String) : Bool :=
  (splitFirstAux pat.data s.data).isSome

/-- Model of JS `s.replace(pat, repl)` with a plain string pattern: only the
first occurrence of `pat` is replaced.  (The `$`-escape sequences JS
interprets inside the replacement string are not modelled; no claim
depends on them.) -/
def replaceFirst (pat repl s : String) : String :=
  match splitFirstAux pat.data s.data with
  | some pr => ⟨pr.1 ++ repl.data ++ pr.2⟩
  | none => s

/-- One step of the left-to-right scan realising the global regex match
`/:([^\/]*)/g`: the state is the list of captures emitted so far together
with the capture currently being built (`none` when the scanner is outside
a match).  A `:` outside a match opens a capture; inside a match every
character other than `/` (including further `:`) is absorbed into the
capture, and a `/` closes it. -/
def scanStep : List String × Option (List Char) → Char → List String × Option (List Char)
  | (acc, none), c => if c = ':' then (acc, some []) else (acc, none)
  | (acc, some buf), c =>
    if c = '/' then (acc ++ [⟨buf⟩], none) else (acc, some (buf ++ [c]))

/-- Finishes the scan: a capture still open at the end of the string is
emitted (the regex `[^\/]*` also matches up to the end of the string). -/
def flushScan : List String × Option (List Char) → List String
  | (acc, none) => acc
  | (acc, some buf) => acc ++ [⟨buf⟩]

/-- The capture groups of `endpoint.match(/:([^\/]*)/g)`, i.e. the list of
placeholder names of an endpoint pattern, in order of occurrence (the
source's `matches.map((match) => match.slice(1))`). -/
def extractParams (endpoint : String) : List String :=
  flushScan (endpoint.data.foldl scanStep ([], none))

/-- Model of `Array.from(new Set(l))`: deduplication keeping the first
occurrence of each element, in order. -/
def dedupFirst : List String → List String
  | [] => []
  | x :: xs => x :: (dedupFirst xs).filter (fun y => y ≠ x)

/-- The keys of a resolved parameter mapping (association list in insertion
order). -/
def keys (params : List (String × String)) : List String :=
  params.map Prod.fst

/-- The property names every plain JS object inherits from
`Object.prototype` (ECMA-262 including the Annex B accessors, all present
in V8/Deno): `key in params` is true for these names even when `params`
is an empty object literal. -/
def objectPrototypeKeys : List String :=
  ["constructor", "hasOwnProperty", "isPrototypeOf", "propertyIsEnumerable",
   "toLocaleString", "toString", "valueOf", "__proto__", "__defineGetter__",
   "__defineSetter__", "__lookupGetter__", "__lookupSetter__"]

/-- Model of the JS `key in params` test for a plain object `params`
(the registered transforms build their mappings as object literals, whose
prototype is `Object.prototype`): true iff `key` is an own key of the
mapping or a property name inherited from `Object.prototype`. -/
def jsIn (key : String) (params : List (String × String)) : Bool :=
  (keys params).contains key || objectPrototypeKeys.contains key

/-- The `missingParams` list computed by `assertHasAllParams`: placeholder
names of the endpoint (deduplicated, first occurrences first) for which
the `key in params` test fails, i.e. which are neither own keys of the
mapping nor `Object.prototype` property names. -/
def missingParams (endpoint : String) (params : List (String × String)) : List String :=
  (dedupFirst (extractParams endpoint)).filter (fun key => !(jsIn key params))

/-- The error message built by `assertHasAllParams`:
missing names joined by a comma inside double quotes, then the endpoint. -/
def notFoundMessage (missing : List String) (endpoint : String) : String :=
  "\"" ++ String.intercalate ", " missing ++ "\" not found in endpoint: " ++ endpoint

/-- Model of the source's `assertHasAllParams(endpoint, params)`: throws
(returns `Except.error`) exactly when some placeholder name of the endpoint
fails the `key in params` test (is neither an own key of the mapping nor an
`Object.prototype` property name), with the message listing every such
name and the endpoint pattern. -/
def assertHasAllParams (endpoint : String) (params : List (String × String)) :
    Except String Unit :=
  if 0 < (missingParams endpoint params).length then
    Except.error (notFoundMessage (missingParams endpoint params) endpoint)
  else
    Except.ok ()

/-- Model of the `URL` object as the source uses it: its pathname and its
search parameter list (in append order).  `new URL(endpoint, baseUrl)` for
the absolute-path endpoints of this repository yields pathname = endpoint
and an empty query; scheme and host are never touched afterwards and are
omitted. -/
structure Url where
  pathname : String
  searchParams : List (String × String)
deriving DecidableEq, Repr

/-- Model of `new URL(endpoint, baseUrl)` performed once per
`Fetcher.fetch` call (see `Url` for the modelling of the base-URL
resolution). -/
def newURL (endpoint : String) : Url :=
  { pathname := endpoint, searchParams := [] }

/-- One iteration of the source's `Object.entries(param).forEach` body:
if the pathname contains `:key` as a substring, replace its first
occurrence by the value; otherwise append the pair to the search
parameters (`url.searchParams.append`). -/
def applyParamStep (u : Url) (kv : String × String) : Url :=
  if includesStr (":" ++ kv.1) u.pathname then
    { u with pathname := replaceFirst (":" ++ kv.1) kv.2 u.pathname }
  else
    { u with searchParams := u.searchParams ++ [kv] }

/-- The whole `forEach` loop over the entries of the resolved parameter
mapping, in insertion order. -/
def applyParams (u : Url) (params : List (String × String)) : Url :=
  params.foldl applyParamStep u

/-- A registry entry (transform bundle) for one (endpoint, method) pair.
The source marks `param` and `body` optional but dereferences them with a
non-null assertion exactly when the corresponding argument is passed, and
its type system guarantees they are present whenever that can happen; the
embedding therefore models them as total functions.  `P` is the caller's
parameter shape, `B` the caller's body shape, `Payload` the transport
payload type (`BodyInit`), `Resp` the transport response type and `R` the
result type of the `response` transform. -/
structure Api (P B Payload Resp R : Type) where
  param : P → List (String × String)
  body : B → Payload
  response : Resp → R

/-- The `args` object passed to a bound request function: an optional
`param` value and an optional `body` value (`none` models both `undefined`
and `null`, which the source treats alike via `!= null`). -/
structure FetchArgs (P B : Type) where
  param : Option P := none
  body : Option B := none
deriving DecidableEq, Repr

/-- The options object passed to the transport.  `method` and `body` are
the fields the source always overrides when it spread-merges the caller's
options with its own `method` and `body`; `extra` stands for every other
caller-supplied field (headers, client, signal, ...), kept abstract as an
association list and forwarded verbatim. -/
structure RequestOpts (Payload : Type) where
  method : Option String := none
  body : Option Payload := none
  extra : List (String × String) := []
deriving DecidableEq, Repr

/-- One invocation of the transport (`globalThis.fetch`): the URL value it
receives and the options object built by the source. -/
structure TransportCall (Payload : Type) where
  url : Url
  init : RequestOpts Payload
deriving DecidableEq, Repr

/-- The flat parameter mapping an invocation is validated against: the
output of the registered `param` transform when `args.param` is supplied,
the empty mapping otherwise (the source's `else` branch validates against
an empty object). -/
def resolvedParams {P B Payload Resp R : Type} (api : Api P B Payload Resp R)
    (args : FetchArgs P B) : List (String × String) :=
  match args.param with
  | some p => api.param p
  | none => []

/-- One invocation of the bound request function returned by
`Fetcher.fetch(endpoint, method)`.  `url` is the current value of the URL
object captured by the closure (created once, at bind time, by
`newURL endpoint`); the source mutates that object in place, which is
modelled by returning the updated `Url` alongside the transport call made
and the value of the invocation.  A thrown missing-parameter error is the
`Except.error` case; it leaves the captured URL unchanged (the source
throws before the `forEach` loop). -/
def fetchInvoke {P B Payload Resp R : Type} (endpoint method : String)
    (api : Api P B Payload Resp R) (transport : TransportCall Payload → Resp)
    (url : Url) (args : FetchArgs P B) (options : RequestOpts Payload) :
    Except String (Url × TransportCall Payload × R) :=
  match args.param with
  | some p =>
    let param := api.param p
    match assertHasAllParams endpoint param with
    | Except.error e => Except.error e
    | Except.ok _ =>
      let url1 := applyParams url param
      let body := args.body.map api.body
      let call : TransportCall Payload :=
        { url := url1
          init := { method := some method, body := body, extra := options.extra } }
      Except.ok (url1, call, api.response (transport call))
  | none =>
    match assertHasAllParams endpoint [] with
    | Except.error e => Except.error e
    | Except.ok _ =>
      let body := args.body.map api.body
      let call : TransportCall Payload :=
        { url := url
          init := { method := some method, body := body, extra := options.extra } }
      Except.ok (url, call, api.response (transport call))

/-- A concrete registry entry used by witnesses and counterexamples: the
`param` transform is the identity on an association list, the `body`
transform is the identity on strings, and the `response` transform maps a
numeric response to its successor. -/
def demoApi : Api (List (String × String)) String String Nat Nat :=
  { param := fun p => p, body := fun b => b, response := fun n => n + 1 }

/-- A concrete transport used by witnesses and counterexamples. -/
def demoTransport : TransportCall String → Nat :=
  fun _ => 41

/-- A second concrete transport, different from `demoTransport`, used to
exhibit transport-independence of validation failures. -/
def demoTransportAlt : TransportCall String → Nat :=
  fun _ => 7

/-! Helper lemmas about the string primitives. -/

lemma string_ext_data {a b : String} (h : a.data = b.data) : a = b := by
  cases a; cases b; simp_all

lemma isPrefixOf_append_self (l r : List Char) : l.isPrefixOf (l ++ r) = true := by
  induction l with
  | nil => simp [List.isPrefixOf]
  | cons c cs ih => simp [List.isPrefixOf, ih]

lemma splitFirstAux_self (p : Char) (ps r : List Char) :
    splitFirstAux (p :: ps) ((p :: ps) ++ r) = some ([], r) := by
  show splitFirstAux (p :: ps) (p :: (ps ++ r)) = some ([], r)
  rw [splitFirstAux]
  have hpre : (p :: ps).isPrefixOf (p :: (ps ++ r)) = true := isPrefixOf_append_self _ _
  rw [if_pos hpre]
  simp [List.drop_left]

lemma splitFirstAux_skip (k l r : List Char) (hl : ':' ∉ l) :
    splitFirstAux (':' :: k) (l ++ r) =
      (splitFirstAux (':' :: k) r).map (fun pr => (l ++ pr.1, pr.2)) := by
  induction l with
  | nil =>
    simp only [List.nil_append]
    cases h : splitFirstAux (':' :: k) r <;> simp [h]
  | cons c cs ih =>
    have hc : c ≠ ':' := by
      intro h; exact hl (by simp [h])
    have hcs : ':' ∉ cs := fun h => hl (List.mem_cons_of_mem _ h)
    show splitFirstAux (':' :: k) (c :: (cs ++ r)) = _
    rw [splitFirstAux]
    have hpre : (':' :: k).isPrefixOf (c :: (cs ++ r)) = false := by
      simp [List.isPrefixOf]
      intro h
      exact absurd h.symm hc
    rw [if_neg (by simp [hpre])]
    rw [ih hcs, Option.map_map]
    cases splitFirstAux (':' :: k) r <;> simp [Function.comp]

lemma data_append_colon (s₁ k s₂ : String) :
    (s₁ ++ ":" ++ k ++ s₂).data = s₁.data ++ ':' :: (k.data ++ s₂.data) := by
  simp [String.data_append]

lemma replaceFirst_at_first (k v s₁ s₂ : String) (hl : ':' ∉ s₁.data) :
    replaceFirst (":" ++ k) v (s₁ ++ ":" ++ k ++ s₂) = s₁ ++ v ++ s₂ := by
  have hpat : (":" ++ k).data = ':' :: k.data := by simp [String.data_append]
  have hs : (s₁ ++ ":" ++ k ++ s₂).data = s₁.data ++ ((':' :: k.data) ++ s₂.data) := by
    simp [String.data_append]
  rw [replaceFirst, hpat, hs, splitFirstAux_skip _ _ _ hl, splitFirstAux_self]
  apply string_ext_data
  simp [String.data_append]

lemma includesStr_at_first (k s₁ s₂ : String) (hl : ':' ∉ s₁.data) :
    includesStr (":" ++ k) (s₁ ++ ":" ++ k ++ s₂) = true := by
  have hpat : (":" ++ k).data = ':' :: k.data := by simp [String.data_append]
  have hs : (s₁ ++ ":" ++ k ++ s₂).data = s₁.data ++ ((':' :: k.data) ++ s₂.data) := by
    simp [String.data_append]
  rw [includesStr, hpat, hs, splitFirstAux_skip _ _ _ hl, splitFirstAux_self]
  simp

/-! Helper lemmas about the placeholder scan. -/

lemma scanStep_acc (acc₀ acc : List String) (cur : Option (List Char)) (c : Char) :
    scanStep (acc₀ ++ acc, cur) c =
      (acc₀ ++ (scanStep (acc, cur) c).1, (scanStep (acc, cur) c).2) := by
  cases cur <;> simp only [scanStep] <;> split <;> simp

lemma foldl_scanStep_acc (l : List Char) (acc₀ acc : List String)
    (cur : Option (List Char)) :
    l.foldl scanStep (acc₀ ++ acc, cur) =
      (acc₀ ++ (l.foldl scanStep (acc, cur)).1, (l.foldl scanStep (acc, cur)).2) := by
  induction l generalizing acc cur with
  | nil => simp
  | cons c cs ih =>
    simp only [List.foldl_cons]
    rw [scanStep_acc]
    exact ih _ _

lemma scanStep_slash (st : List String × Option (List Char)) :
    (scanStep st '/').2 = none := by
  obtain ⟨acc, cur⟩ := st
  cases cur <;> simp [scanStep]

lemma foldl_scanStep_ends_slash (t : List Char) (st : List String × Option (List Char)) :
    ((t ++ ['/']).foldl scanStep st).2 = none := by
  rw [List.foldl_append]
  simp [scanStep_slash]

lemma flushScan_mem_left (x : String) (acc t : List String) (cur : Option (List Char))
    (h : x ∈ acc) : x ∈ flushScan (acc ++ t, cur) := by
  cases cur <;> simp [flushScan, h]

lemma mem_extractParams_bare_colon (s₁ s₂ : String)
    (h1 : s₁ = "" ∨ ∃ t : String, s₁ = t ++ "/")
    (h2 : s₂ = "" ∨ ∃ r : String, s₂ = "/" ++ r) :
    "" ∈ extractParams (s₁ ++ ":" ++ s₂) := by
  have hdata : (s₁ ++ ":" ++ s₂).data = s₁.data ++ ':' :: s₂.data := by
    simp [String.data_append]
  have hcur : (s₁.data.foldl scanStep ([], none)).2 = none := by
    rcases h1 with h1 | ⟨t, rfl⟩
    · subst h1; simp
    · have ht : (t ++ "/").data = t.data ++ ['/'] := by
        simp [String.data_append]
      rw [ht]
      exact foldl_scanStep_ends_slash _ _
  rw [extractParams, hdata, List.foldl_append]
  rcases hE : s₁.data.foldl scanStep ([], none) with ⟨acc₁, cur₁⟩
  rw [hE] at hcur
  simp only at hcur
  subst hcur
  simp only [List.foldl_cons]
  have h3 : scanStep (acc₁, none) ':' = (acc₁, some []) := by simp [scanStep]
  rw [h3]
  have hnil : (⟨[]⟩ : String) = "" := rfl
  rcases h2 with h2 | ⟨r, rfl⟩
  · subst h2
    have he : ("" : String).data = [] := rfl
    rw [he]
    simp [flushScan, hnil]
  · have hr : ("/" ++ r).data = '/' :: r.data := by
      simp [String.data_append]
    rw [hr]
    simp only [List.foldl_cons]
    have h4 : scanStep (acc₁, some []) '/' = (acc₁ ++ [⟨[]⟩], none) := by simp [scanStep]
    rw [h4]
    have h5 : (acc₁ ++ [⟨[]⟩], (none : Option (List Char))) =
        ((acc₁ ++ [⟨[]⟩]) ++ [], none) := by simp
    rw [h5, foldl_scanStep_acc]
    exact flushScan_mem_left _ _ _ _ (by simp [hnil])

/-! Helper lemmas characterising the validation helper. -/

lemma mem_dedupFirst (x : String) (l : List String) : x ∈ dedupFirst l ↔ x ∈ l := by
  induction l with
  | nil => simp [dedupFirst]
  | cons y ys ih =>
    by_cases hxy : x = y
    · subst hxy; simp [dedupFirst]
    · simp [dedupFirst, hxy, List.mem_filter, ih]

lemma mem_missingParams (endpoint : String) (params : List (String × String)) (k : String) :
    k ∈ missingParams endpoint params ↔
      k ∈ extractParams endpoint ∧ k ∉ keys params ∧ k ∉ objectPrototypeKeys := by
  rw [missingParams, List.mem_filter, mem_dedupFirst]
  simp [jsIn]

lemma missingParams_eq_nil_iff (endpoint : String) (params : List (String × String)) :
    missingParams endpoint params = [] ↔
      ∀ k ∈ extractParams endpoint, k ∈ keys params ∨ k ∈ objectPrototypeKeys := by
  rw [List.eq_nil_iff_forall_not_mem]
  constructor
  · intro h k hk
    by_contra hnk
    push_neg at hnk
    exact h k ((mem_missingParams _ _ _).mpr ⟨hk, hnk.1, hnk.2⟩)
  · intro h k hk
    rw [mem_missingParams] at hk
    rcases h k hk.1 with hc | hc
    · exact hk.2.1 hc
    · exact hk.2.2 hc

lemma assertHasAllParams_ok_iff (endpoint : String) (params : List (String × String)) :
    assertHasAllParams endpoint params = Except.ok () ↔
      ∀ k ∈ extractParams endpoint, k ∈ keys params ∨ k ∈ objectPrototypeKeys := by
  rw [assertHasAllParams, ← missingParams_eq_nil_iff]
  split
  · rename_i h
    constructor
    · intro he; cases he
    · intro he
      rw [he] at h
      simp at h
  · rename_i h
    constructor
    · intro _
      rcases List.eq_nil_or_concat (missingParams endpoint params) with hn | ⟨l, x, hc⟩
      · exact hn
      · exfalso; rw [hc] at h; simp at h
    · intro _; rfl

lemma assertHasAllParams_error (endpoint : String) (params : List (String × String))
    (h : ¬ ∀ k ∈ extractParams endpoint, k ∈ keys params ∨ k ∈ objectPrototypeKeys) :
    assertHasAllParams endpoint params =
      Except.error (notFoundMessage (missingParams endpoint params) endpoint) := by
  rw [assertHasAllParams, if_pos]
  rw [← missingParams_eq_nil_iff] at h
  rcases List.eq_nil_or_concat (missingParams endpoint params) with hn | ⟨l, x, hc⟩
  · exact absurd hn h
  · rw [hc]; simp

/-! Helper lemmas about the substitution loop. -/

lemma applyParams_append (u : Url) (ps₁ ps₂ : List (String × String)) :
    applyParams u (ps₁ ++ ps₂) = applyParams (applyParams u ps₁) ps₂ :=
  List.foldl_append _ _ _ _

lemma applyParamStep_subst (u : Url) (k v : String)
    (h : includesStr (":" ++ k) u.pathname = true) :
    applyParamStep u (k, v) = { u with pathname := replaceFirst (":" ++ k) v u.pathname } := by
  simp [applyParamStep, h]

lemma applyParamStep_query (u : Url) (k v : String)
    (h : includesStr (":" ++ k) u.pathname = false) :
    applyParamStep u (k, v) = { u with searchParams := u.searchParams ++ [(k, v)] } := by
  simp [applyParamStep, h]

lemma applyParams_searchParams (ps : List (String × String)) :
    ∀ u : Url, ∃ l, (applyParams u ps).searchParams = u.searchParams ++ l ∧
      l.Sublist ps := by
  induction ps with
  | nil => intro u; exact ⟨[], by simp [applyParams], List.nil_sublist _⟩
  | cons kv tl ih =>
    intro u
    have hstep : applyParams u (kv :: tl) = applyParams (applyParamStep u kv) tl := rfl
    obtain ⟨l, hl, hsub⟩ := ih (applyParamStep u kv)
    rw [hstep, hl]
    by_cases h : includesStr (":" ++ kv.1) u.pathname = true
    · refine ⟨l, ?_, List.Sublist.cons _ hsub⟩
      have : applyParamStep u kv = { u with pathname := replaceFirst (":" ++ kv.1) kv.2 u.pathname } := by
        obtain ⟨k, v⟩ := kv
        exact applyParamStep_subst u k v h
      rw [this]
    · refine ⟨kv :: l, ?_, List.Sublist.cons₂ _ hsub⟩
      have : applyParamStep u kv = { u with searchParams := u.searchParams ++ [kv] } := by
        obtain ⟨k, v⟩ := kv
        exact applyParamStep_query u k v (by simpa using h)
      rw [this]
      simp

/-! Helper lemmas inverting one invocation of the bound request function. -/

lemma fetchInvoke_of_assert_ok {P B Payload Resp R : Type} (endpoint method : String)
    (api : Api P B Payload Resp R) (transport : TransportCall Payload → Resp)
    (url : Url) (args : FetchArgs P B) (options : RequestOpts Payload)
    (h : assertHasAllParams endpoint (resolvedParams api args) = Except.ok ()) :
    fetchInvoke endpoint method api transport url args options =
      Except.ok (applyParams url (resolvedParams api args),
        ⟨applyParams url (resolvedParams api args),
          ⟨some method, args.body.map api.body, options.extra⟩⟩,
        api.response (transport ⟨applyParams url (resolvedParams api args),
          ⟨some method, args.body.map api.body, options.extra⟩⟩)) := by
  obtain ⟨p?, b?⟩ := args
  cases p? with
  | some p =>
    have hres : resolvedParams api ⟨some p, b?⟩ = api.param p := rfl
    rw [hres] at h
    simp only [fetchInvoke, h, hres]
  | none =>
    have hres : resolvedParams api ⟨none, b?⟩ = [] := rfl
    rw [hres] at h
    simp only [fetchInvoke, h, hres]
    rfl

lemma fetchInvoke_of_assert_error {P B Payload Resp R : Type} (endpoint method : String)
    (api : Api P B Payload Resp R) (transport : TransportCall Payload → Resp)
    (url : Url) (args : FetchArgs P B) (options : RequestOpts Payload) (e : String)
    (h : assertHasAllParams endpoint (resolvedParams api args) = Except.error e) :
    fetchInvoke endpoint method api transport url args options = Except.error e := by
  obtain ⟨p?, b?⟩ := args
  cases p? with
  | some p =>
    have hres : resolvedParams api ⟨some p, b?⟩ = api.param p := rfl
    rw [hres] at h
    simp only [fetchInvoke, h]
  | none =>
    have hres : resolvedParams api ⟨none, b?⟩ = [] := rfl
    rw [hres] at h
    simp only [fetchInvoke, h]

lemma assertHasAllParams_cases (endpoint : String) (params : List (String × String)) :
    assertHasAllParams endpoint params = Except.ok () ∨
      assertHasAllParams endpoint params =
        Except.error (notFoundMessage (missingParams endpoint params) endpoint) := by
  by_cases h : ∀ k ∈ extractParams endpoint, k ∈ keys params ∨ k ∈ objectPrototypeKeys
  · exact Or.inl ((assertHasAllParams_ok_iff _ _).mpr h)
  · exact Or.inr (assertHasAllParams_error _ _ h)

lemma fetchInvoke_isOk_iff {P B Payload Resp R : Type} (endpoint method : String)
    (api : Api P B Payload Resp R) (transport : TransportCall Payload → Resp)
    (url : Url) (args : FetchArgs P B) (options : RequestOpts Payload) :
    (fetchInvoke endpoint method api transport url args options).isOk = true ↔
      ∀ k ∈ extractParams endpoint,
        k ∈ keys (resolvedParams api args) ∨ k ∈ objectPrototypeKeys := by
  rcases assertHasAllParams_cases endpoint (resolvedParams api args) with h | h
  · rw [fetchInvoke_of_assert_ok endpoint method api transport url args options h]
    simp [Except.isOk, Except.toBool]
    exact (assertHasAllParams_ok_iff _ _).mp h
  · rw [fetchInvoke_of_assert_error endpoint method api transport url args options _ h]
    simp [Except.isOk, Except.toBool]
    by_contra hc
    push_neg at hc
    have hall : ∀ k ∈ extractParams endpoint,
        k ∈ keys (resolvedParams api args) ∨ k ∈ objectPrototypeKeys := by
      intro k hk
      by_cases hkk : k ∈ keys (resolvedParams api args)
      · exact Or.inl hkk
      · exact Or.inr (hc k hk hkk)
    rw [(assertHasAllParams_ok_iff _ _).mpr hall] at h
    cases h

lemma fetchInvoke_ok_inv {P B Payload Resp R : Type} (endpoint method : String)
    (api : Api P B Payload Resp R) (transport : TransportCall Payload → Resp)
    (url : Url) (args : FetchArgs P B) (options : RequestOpts Payload)
    (u : Url) (call : TransportCall Payload) (r : R)
    (h : fetchInvoke endpoint method api transport url args options =
      Except.ok (u, call, r)) :
    u = applyParams url (resolvedParams api args) ∧
    call = ⟨applyParams url (resolvedParams api args),
      ⟨some method, args.body.map api.body, options.extra⟩⟩ ∧
    r = api.response (transport call) := by
  rcases assertHasAllParams_cases endpoint (resolvedParams api args) with hok | herr
  · rw [fetchInvoke_of_assert_ok endpoint method api transport url args options hok] at h
    rw [Except.ok.injEq, Prod.mk.injEq, Prod.mk.injEq] at h
    obtain ⟨hu, hc, hr⟩ := h
    exact ⟨hu.symm, hc.symm, by rw [← hr, hc]⟩
  · rw [fetchInvoke_of_assert_error endpoint method api transport url args options _ herr] at h
    simp at h

lemma fetchInvoke_extra_only {P B Payload Resp R : Type} (endpoint method : String)
    (api : Api P B Payload Resp R) (transport : TransportCall Payload → Resp)
    (url : Url) (args : FetchArgs P B) (options options' : RequestOpts Payload)
    (hx : options.extra = options'.extra) :
    fetchInvoke endpoint method api transport url args options =
      fetchInvoke endpoint method api transport url args options' := by
  rcases assertHasAllParams_cases endpoint (resolvedParams api args) with hok | herr
  · rw [fetchInvoke_of_assert_ok endpoint method api transport url args options hok,
      fetchInvoke_of_assert_ok endpoint method api transport url args options' hok, hx]
  · rw [fetchInvoke_of_assert_error endpoint method api transport url args options _ herr,
      fetchInvoke_of_assert_error endpoint method api transport url args options' _ herr]

/-! Claim theorems. -/

/-- C1 (counterexample): the claim "invoking the bound function twice in
succession with the same arguments causes the transport to be invoked with
the same URL both times" is false.  For the endpoint `/users/:id` with the
resolved mapping `id = 1`, the first invocation calls the transport with
pathname `/users/1` and no query, and leaves the captured URL mutated to
that value; the second invocation with the same arguments finds no `:id`
in the mutated pathname, appends `id=1` as a query parameter, and calls
the transport with a different URL. -/
theorem c1_counterexample :
    fetchInvoke "/users/:id" "GET" demoApi demoTransport (newURL "/users/:id")
        ⟨some [("id", "1")], none⟩ {} =
      Except.ok (⟨"/users/1", []⟩,
        ⟨⟨"/users/1", []⟩, ⟨some "GET", none, []⟩⟩, 42) ∧
    fetchInvoke "/users/:id" "GET" demoApi demoTransport ⟨"/users/1", []⟩
        ⟨some [("id", "1")], none⟩ {} =
      Except.ok (⟨"/users/1", [("id", "1")]⟩,
        ⟨⟨"/users/1", [("id", "1")]⟩, ⟨some "GET", none, []⟩⟩, 42) ∧
    (⟨"/users/1", []⟩ : Url) ≠ ⟨"/users/1", [("id", "1")]⟩ :=
  ⟨rfl, rfl, by decide⟩

/-- C1 (amended): URL state persists from one invocation of a bound
request function to the next.  A successful invocation with a supplied
`param` argument calls the transport with the captured URL after the
substitution loop, and leaves the captured URL equal to that same mutated
value; a second invocation with the same arguments therefore starts from
the mutated URL and calls the transport with the substitution loop applied
twice, not with a URL built fresh from the endpoint pattern. -/
theorem c1_url_state_persists {P B Payload Resp R : Type} (endpoint method : String)
    (api : Api P B Payload Resp R) (transport : TransportCall Payload → Resp)
    (url : Url) (p : P) (b : Option B) (options : RequestOpts Payload)
    (h : assertHasAllParams endpoint (api.param p) = Except.ok ()) :
    (fetchInvoke endpoint method api transport url ⟨some p, b⟩ options).map
        (fun x => x.2.1.url) = Except.ok (applyParams url (api.param p)) ∧
    (fetchInvoke endpoint method api transport url ⟨some p, b⟩ options).map
        (fun x => x.1) = Except.ok (applyParams url (api.param p)) ∧
    (fetchInvoke endpoint method api transport (applyParams url (api.param p))
        ⟨some p, b⟩ options).map (fun x => x.2.1.url) =
      Except.ok (applyParams (applyParams url (api.param p)) (api.param p)) := by
  have hres : resolvedParams api (⟨some p, b⟩ : FetchArgs P B) = api.param p := rfl
  have h1 := fetchInvoke_of_assert_ok endpoint method api transport url
    (⟨some p, b⟩ : FetchArgs P B) options (by rw [hres]; exact h)
  have h2 := fetchInvoke_of_assert_ok endpoint method api transport
    (applyParams url (api.param p)) (⟨some p, b⟩ : FetchArgs P B) options
    (by rw [hres]; exact h)
  rw [hres] at h1 h2
  exact ⟨by rw [h1]; rfl, by rw [h1]; rfl, by rw [h2]; rfl⟩

/-- C1 witness: instantiates the amended theorem at the endpoint
`/users/:id` with mapping `id = 1`. -/
theorem c1_witness :
    (fetchInvoke "/users/:id" "GET" demoApi demoTransport (newURL "/users/:id")
        ⟨some [("id", "1")], none⟩ {}).map (fun x => x.2.1.url) =
      Except.ok (applyParams (newURL "/users/:id") [("id", "1")]) := by
  have h := c1_url_state_persists "/users/:id" "GET" demoApi demoTransport
    (newURL "/users/:id") [("id", "1")] none {} (by rfl)
  exact h.1

/-- C2 (counterexample): validation is not "succeeds iff S is a subset of
the keys of M".  The source tests `key in params`, and JS `in` consults
the prototype chain: at the endpoint `/x/:toString` with the empty
resolved mapping, the placeholder `toString` is not a key of the mapping,
yet `"toString" in` an empty object literal is true (inherited from
`Object.prototype`), so the filter drops it, nothing is thrown and the
transport is invoked. -/
theorem c2_counterexample :
    fetchInvoke "/x/:toString" "GET" demoApi demoTransport (newURL "/x/:toString")
        (⟨none, none⟩ : FetchArgs (List (String × String)) String) {} =
      Except.ok (⟨"/x/:toString", []⟩,
        ⟨⟨"/x/:toString", []⟩, ⟨some "GET", none, []⟩⟩, 42) ∧
    "toString" ∈ extractParams "/x/:toString" ∧
    "toString" ∉ keys ([] : List (String × String)) :=
  ⟨rfl, by decide, by decide⟩

/-- C2 (amended): an invocation of a bound request function succeeds iff
every placeholder of the endpoint pattern passes the JS `in` test against
the resolved mapping, i.e. is an own key of the mapping or a property
name inherited from `Object.prototype`; otherwise it throws an error
built from exactly the placeholders that pass neither test (first
occurrences, in pattern order) together with the endpoint pattern. -/
theorem c2_placeholder_coverage {P B Payload Resp R : Type} (endpoint method : String)
    (api : Api P B Payload Resp R) (transport : TransportCall Payload → Resp)
    (url : Url) (args : FetchArgs P B) (options : RequestOpts Payload) :
    ((fetchInvoke endpoint method api transport url args options).isOk = true ↔
      ∀ k ∈ extractParams endpoint,
        k ∈ keys (resolvedParams api args) ∨ k ∈ objectPrototypeKeys) ∧
    ((¬ ∀ k ∈ extractParams endpoint,
        k ∈ keys (resolvedParams api args) ∨ k ∈ objectPrototypeKeys) →
      fetchInvoke endpoint method api transport url args options =
        Except.error (notFoundMessage
          (missingParams endpoint (resolvedParams api args)) endpoint)) ∧
    (∀ k, k ∈ missingParams endpoint (resolvedParams api args) ↔
      (k ∈ extractParams endpoint ∧ k ∉ keys (resolvedParams api args) ∧
        k ∉ objectPrototypeKeys)) := by
  refine ⟨fetchInvoke_isOk_iff endpoint method api transport url args options, ?_, ?_⟩
  · intro h
    exact fetchInvoke_of_assert_error endpoint method api transport url args options _
      (assertHasAllParams_error _ _ h)
  · exact mem_missingParams endpoint (resolvedParams api args)

/-- C2 witness: at the endpoint `/users/:id` with no `param` argument
(`id` is neither a mapping key nor an `Object.prototype` name) the
invocation throws the missing-parameter error naming `id`. -/
theorem c2_witness :
    fetchInvoke "/users/:id" "GET" demoApi demoTransport (newURL "/users/:id")
        (⟨none, none⟩ : FetchArgs (List (String × String)) String) {} =
      Except.error "\"id\" not found in endpoint: /users/:id" := by
  have h := c2_placeholder_coverage "/users/:id" "GET" demoApi demoTransport
    (newURL "/users/:id") (⟨none, none⟩ : FetchArgs (List (String × String)) String) {}
  have he := h.2.1 (by decide)
  rw [he]
  rfl

/-- C3 (counterexample): matching a key against the pattern is by plain
substring, not by exact placeholder token.  At the endpoint `/users/:idx`
with mapping `id = 1, idx = X` (which covers the only placeholder `idx`),
the claim predicts path `/users/X` with `id` as a query parameter and
`idx` absent from the query; the code instead substitutes the
proper-prefix key `id` into the placeholder `:idx` (pathname `/users/1x`)
and then appends `idx` as a query parameter. -/
theorem c3_counterexample :
    fetchInvoke "/users/:idx" "GET" demoApi demoTransport (newURL "/users/:idx")
        ⟨some [("id", "1"), ("idx", "X")], none⟩ {} =
      Except.ok (⟨"/users/1x", [("idx", "X")]⟩,
        ⟨⟨"/users/1x", [("idx", "X")]⟩, ⟨some "GET", none, []⟩⟩, 42) ∧
    "idx" ∈ extractParams "/users/:idx" ∧
    "idx" ∈ keys [("idx", "X")] ∧
    "id" ∉ extractParams "/users/:idx" :=
  ⟨rfl, by decide, by decide, by decide⟩

/-- C3 (amended): keys are processed in mapping-insertion order against
the evolving pathname.  For distinct mapping keys and a key not already
present in the query of the starting URL: at the step for key `k`, if the
string `:k` occurs as a plain substring of the current (possibly already
substituted) pathname, its first occurrence is replaced by the value and
`k` never appears as a query parameter of the built URL; otherwise the
pair is appended as a query parameter and remains in the built URL.
Because occurrence is tested by substring rather than by exact placeholder
token, a key that is a proper prefix of a longer placeholder name captures
that placeholder when processed before it. -/
theorem c3_substring_substitution (url : Url) (ps₁ ps₂ : List (String × String))
    (k v : String) (hnd : (keys (ps₁ ++ (k, v) :: ps₂)).Nodup)
    (hq : k ∉ keys url.searchParams) :
    (includesStr (":" ++ k) (applyParams url ps₁).pathname = true →
      applyParams url (ps₁ ++ (k, v) :: ps₂) =
        applyParams { applyParams url ps₁ with
          pathname := replaceFirst (":" ++ k) v (applyParams url ps₁).pathname } ps₂ ∧
      k ∉ keys (applyParams url (ps₁ ++ (k, v) :: ps₂)).searchParams) ∧
    (includesStr (":" ++ k) (applyParams url ps₁).pathname = false →
      applyParams url (ps₁ ++ (k, v) :: ps₂) =
        applyParams { applyParams url ps₁ with
          searchParams := (applyParams url ps₁).searchParams ++ [(k, v)] } ps₂ ∧
      (k, v) ∈ (applyParams url (ps₁ ++ (k, v) :: ps₂)).searchParams) := by
  have hsplit : applyParams url (ps₁ ++ (k, v) :: ps₂) =
      applyParams (applyParamStep (applyParams url ps₁) (k, v)) ps₂ := by
    rw [applyParams_append]; rfl
  have hkeys : keys (ps₁ ++ (k, v) :: ps₂) = keys ps₁ ++ k :: keys ps₂ := by
    simp [keys]
  rw [hkeys] at hnd
  have hk1 : k ∉ keys ps₁ := by
    intro hmem
    rcases List.nodup_append.mp hnd with ⟨-, -, hdisj⟩
    exact hdisj hmem (List.mem_cons_self _ _)
  have hk2 : k ∉ keys ps₂ := by
    have := (List.nodup_append.mp hnd).2.1
    exact (List.nodup_cons.mp this).1
  obtain ⟨l₁, hl₁, hsub₁⟩ := applyParams_searchParams ps₁ url
  constructor
  · intro h
    have hstep := applyParamStep_subst (applyParams url ps₁) k v h
    refine ⟨by rw [hsplit, hstep], ?_⟩
    rw [hsplit, hstep]
    obtain ⟨l₂, hl₂, hsub₂⟩ := applyParams_searchParams ps₂
      { applyParams url ps₁ with
        pathname := replaceFirst (":" ++ k) v (applyParams url ps₁).pathname }
    rw [hl₂]
    show k ∉ keys ((applyParams url ps₁).searchParams ++ l₂)
    rw [hl₁]
    intro hmem
    rw [keys, List.map_append, List.map_append] at hmem
    rcases List.mem_append.mp hmem with hmem | hmem
    · rcases List.mem_append.mp hmem with hmem | hmem
      · exact hq hmem
      · exact hk1 ((hsub₁.map Prod.fst).subset hmem)
    · exact hk2 ((hsub₂.map Prod.fst).subset hmem)
  · intro h
    have hstep := applyParamStep_query (applyParams url ps₁) k v h
    refine ⟨by rw [hsplit, hstep], ?_⟩
    rw [hsplit, hstep]
    obtain ⟨l₂, hl₂, hsub₂⟩ := applyParams_searchParams ps₂
      { applyParams url ps₁ with
        searchParams := (applyParams url ps₁).searchParams ++ [(k, v)] }
    rw [hl₂]
    show (k, v) ∈ (applyParams url ps₁).searchParams ++ [(k, v)] ++ l₂
    exact List.mem_append_left _ (List.mem_append_right _ (List.mem_singleton_self _))

/-- C3 witness: instantiates the amended theorem at the endpoint
`/users/:idx` with the key `id` processed first: the substring branch
fires and `id` never reaches the query. -/
theorem c3_witness :
    "id" ∉ keys (applyParams (newURL "/users/:idx")
        ([] ++ ("id", "1") :: [("idx", "X")])).searchParams ∧
    applyParams (newURL "/users/:idx") [("id", "1"), ("idx", "X")] =
      ⟨"/users/1x", [("idx", "X")]⟩ := by
  have h := c3_substring_substitution (newURL "/users/:idx") [] [("idx", "X")]
    "id" "1" (by decide) (by decide)
  exact ⟨(h.1 (by decide)).2, by decide⟩

/-- C4 (counterexample): a bound call with no `param` argument does not
fail for every pattern containing a placeholder.  At `/x/:toString` the
placeholder set is nonempty, yet the empty object passes the `in` test
for `toString` (inherited from `Object.prototype`), so the call succeeds
and reaches the transport. -/
theorem c4_counterexample :
    (fetchInvoke "/x/:toString" "GET" demoApi demoTransport (newURL "/x/:toString")
        (⟨none, none⟩ : FetchArgs (List (String × String)) String) {}).isOk = true ∧
    extractParams "/x/:toString" = ["toString"] :=
  ⟨rfl, by decide⟩

/-- C4 (amended): a bound invocation with no `param` argument is
validated against the empty mapping: it succeeds iff every placeholder
name of the endpoint pattern is an `Object.prototype` property name (in
particular, iff the pattern has zero placeholders whenever no placeholder
is named like an `Object.prototype` property), and with any other
placeholder present it fails with the missing-parameter error before any
transport activity (the error value does not depend on the transport). -/
theorem c4_no_param_empty_mapping {P B Payload Resp R : Type} (endpoint method : String)
    (api : Api P B Payload Resp R) (transport : TransportCall Payload → Resp)
    (url : Url) (b : Option B) (options : RequestOpts Payload) :
    ((fetchInvoke endpoint method api transport url ⟨none, b⟩ options).isOk = true ↔
      ∀ k ∈ extractParams endpoint, k ∈ objectPrototypeKeys) ∧
    ((¬ ∀ k ∈ extractParams endpoint, k ∈ objectPrototypeKeys) →
      fetchInvoke endpoint method api transport url ⟨none, b⟩ options =
        Except.error (notFoundMessage (missingParams endpoint []) endpoint)) := by
  have hres : resolvedParams api (⟨none, b⟩ : FetchArgs P B) = [] := rfl
  constructor
  · rw [fetchInvoke_isOk_iff, hres]
    constructor
    · intro h k hk
      rcases h k hk with hc | hc
      · simp [keys] at hc
      · exact hc
    · intro h k hk
      exact Or.inr (h k hk)
  · intro h
    apply fetchInvoke_of_assert_error
    rw [hres]
    apply assertHasAllParams_error
    intro hall
    apply h
    intro k hk
    rcases hall k hk with hc | hc
    · simp [keys] at hc
    · exact hc

/-- C4 witness: a placeholder-free endpoint succeeds with no `param`
argument; the endpoint `/users/:id` (placeholder `id`, not an
`Object.prototype` name) fails with the error naming `id`. -/
theorem c4_witness :
    (fetchInvoke "/users" "POST" demoApi demoTransport (newURL "/users")
        (⟨none, some "payload"⟩ : FetchArgs (List (String × String)) String)
        {}).isOk = true ∧
    fetchInvoke "/users/:id" "POST" demoApi demoTransport (newURL "/users/:id")
        (⟨none, some "payload"⟩ : FetchArgs (List (String × String)) String) {} =
      Except.error "\"id\" not found in endpoint: /users/:id" := by
  constructor
  · have h := c4_no_param_empty_mapping "/users" "POST" demoApi demoTransport
      (newURL "/users") (some "payload") {}
    exact h.1.mpr (by decide)
  · have h := c4_no_param_empty_mapping "/users/:id" "POST" demoApi demoTransport
      (newURL "/users/:id") (some "payload") {}
    rw [h.2 (by decide)]
    rfl

/-- C5 (counterexample): when the resolved mapping fails to cover the
placeholder set the transport is not always spared.  At `/x/:toString`
with the empty mapping the placeholder `toString` is not a key of the
mapping, yet the invocation succeeds and its value depends on the
transport (42 for one transport, 8 for another), so the transport was
invoked. -/
theorem c5_counterexample :
    fetchInvoke "/x/:toString" "GET" demoApi demoTransport (newURL "/x/:toString")
        (⟨none, none⟩ : FetchArgs (List (String × String)) String) {} =
      Except.ok (⟨"/x/:toString", []⟩,
        ⟨⟨"/x/:toString", []⟩, ⟨some "GET", none, []⟩⟩, 42) ∧
    fetchInvoke "/x/:toString" "GET" demoApi demoTransportAlt (newURL "/x/:toString")
        (⟨none, none⟩ : FetchArgs (List (String × String)) String) {} =
      Except.ok (⟨"/x/:toString", []⟩,
        ⟨⟨"/x/:toString", []⟩, ⟨some "GET", none, []⟩⟩, 8) ∧
    "toString" ∈ extractParams "/x/:toString" ∧
    "toString" ∉ keys ([] : List (String × String)) ∧
    (42 : Nat) ≠ 8 :=
  ⟨rfl, rfl, by decide, by decide, by decide⟩

/-- C5 (amended): whenever some placeholder of the endpoint pattern is
neither a key of the resolved parameter mapping nor an `Object.prototype`
property name, the invocation evaluates to the missing-parameter error
and the transport is never invoked: the result is the same for every
transport function. -/
theorem c5_no_transport_on_missing {P B Payload Resp R : Type} (endpoint method : String)
    (api : Api P B Payload Resp R) (t₁ t₂ : TransportCall Payload → Resp)
    (url : Url) (args : FetchArgs P B) (options : RequestOpts Payload)
    (h : ¬ ∀ k ∈ extractParams endpoint,
      k ∈ keys (resolvedParams api args) ∨ k ∈ objectPrototypeKeys) :
    fetchInvoke endpoint method api t₁ url args options =
      Except.error (notFoundMessage
        (missingParams endpoint (resolvedParams api args)) endpoint) ∧
    fetchInvoke endpoint method api t₁ url args options =
      fetchInvoke endpoint method api t₂ url args options := by
  have he := assertHasAllParams_error endpoint (resolvedParams api args) h
  constructor
  · exact fetchInvoke_of_assert_error endpoint method api t₁ url args options _ he
  · rw [fetchInvoke_of_assert_error endpoint method api t₁ url args options _ he,
      fetchInvoke_of_assert_error endpoint method api t₂ url args options _ he]

/-- C5 witness: at `/users/:id` with mapping `v = 1` (missing `id`), two
different transports give the same missing-parameter error. -/
theorem c5_witness :
    fetchInvoke "/users/:id" "GET" demoApi demoTransport (newURL "/users/:id")
        ⟨some [("v", "1")], none⟩ {} =
      Except.error "\"id\" not found in endpoint: /users/:id" ∧
    fetchInvoke "/users/:id" "GET" demoApi demoTransport (newURL "/users/:id")
        ⟨some [("v", "1")], none⟩ {} =
      fetchInvoke "/users/:id" "GET" demoApi demoTransportAlt (newURL "/users/:id")
        ⟨some [("v", "1")], none⟩ {} := by
  have h := c5_no_transport_on_missing "/users/:id" "GET" demoApi demoTransport
    demoTransportAlt (newURL "/users/:id") ⟨some [("v", "1")], none⟩ {} (by decide)
  refine ⟨?_, h.2⟩
  rw [h.1]
  rfl

/-- C6: every transport call carries the method under which the bound
function was obtained and the body computed by this invocation, while the
remaining caller-supplied option fields are forwarded unchanged; any
method or body field in the caller-supplied options is discarded (the
whole invocation result is unchanged by them). -/
theorem c6_method_fidelity {P B Payload Resp R : Type} (endpoint method : String)
    (api : Api P B Payload Resp R) (transport : TransportCall Payload → Resp)
    (url : Url) (args : FetchArgs P B) (options : RequestOpts Payload)
    (u : Url) (call : TransportCall Payload) (r : R)
    (h : fetchInvoke endpoint method api transport url args options =
      Except.ok (u, call, r)) :
    call.init.method = some method ∧
    call.init.body = args.body.map api.body ∧
    call.init.extra = options.extra ∧
    ∀ (m : Option String) (b : Option Payload),
      fetchInvoke endpoint method api transport url args
          ⟨m, b, options.extra⟩ =
        fetchInvoke endpoint method api transport url args options := by
  obtain ⟨-, hc, -⟩ := fetchInvoke_ok_inv endpoint method api transport url args
    options u call r h
  refine ⟨by rw [hc], by rw [hc], by rw [hc], ?_⟩
  intro m b
  exact fetchInvoke_extra_only endpoint method api transport url args _ options rfl

/-- C6 witness: a call with junk method and body fields in the options
still reaches the transport with the bound method `GET` and the computed
body, and the extra fields verbatim. -/
theorem c6_witness :
    (⟨⟨"/users/1", []⟩, ⟨some "GET", some "payload", [("h", "v")]⟩⟩ :
        TransportCall String).init.method = some "GET" ∧
    (⟨⟨"/users/1", []⟩, ⟨some "GET", some "payload", [("h", "v")]⟩⟩ :
        TransportCall String).init.extra = [("h", "v")] ∧
    fetchInvoke "/users/:id" "GET" demoApi demoTransport (newURL "/users/:id")
        ⟨some [("id", "1")], some "payload"⟩ ⟨some "DELETE", some "junk", [("h", "v")]⟩ =
      fetchInvoke "/users/:id" "GET" demoApi demoTransport (newURL "/users/:id")
        ⟨some [("id", "1")], some "payload"⟩ ⟨none, none, [("h", "v")]⟩ := by
  have h := c6_method_fidelity "/users/:id" "GET" demoApi demoTransport
    (newURL "/users/:id") ⟨some [("id", "1")], some "payload"⟩
    (⟨none, none, [("h", "v")]⟩ : RequestOpts String)
    ⟨"/users/1", []⟩ ⟨⟨"/users/1", []⟩, ⟨some "GET", some "payload", [("h", "v")]⟩⟩ 42
    rfl
  exact ⟨h.1, h.2.2.1, h.2.2.2 (some "DELETE") (some "junk")⟩

/-- C7: when a non-null body argument is supplied, the transport receives
exactly the payload produced by the registered body transform on it; when
the body argument is omitted or null, the transport receives no payload. -/
theorem c7_body_passthrough {P B Payload Resp R : Type} (endpoint method : String)
    (api : Api P B Payload Resp R) (transport : TransportCall Payload → Resp)
    (url : Url) (args : FetchArgs P B) (options : RequestOpts Payload)
    (u : Url) (call : TransportCall Payload) (r : R)
    (h : fetchInvoke endpoint method api transport url args options =
      Except.ok (u, call, r)) :
    (∀ bv : B, args.body = some bv → call.init.body = some (api.body bv)) ∧
    (args.body = none → call.init.body = none) := by
  obtain ⟨-, hc, -⟩ := fetchInvoke_ok_inv endpoint method api transport url args
    options u call r h
  constructor
  · intro bv hb
    rw [hc, hb]
    rfl
  · intro hb
    rw [hc, hb]
    rfl

/-- C7 witness: with body `"payload"` the transport receives
`demoApi.body "payload" = "payload"`; with no body it receives none. -/
theorem c7_witness :
    (⟨⟨"/users/1", []⟩, ⟨some "GET", some "payload", []⟩⟩ :
        TransportCall String).init.body = some (demoApi.body "payload") ∧
    (⟨⟨"/users/1", []⟩, ⟨some "GET", none, []⟩⟩ :
        TransportCall String).init.body = none := by
  have h1 := c7_body_passthrough "/users/:id" "GET" demoApi demoTransport
    (newURL "/users/:id") ⟨some [("id", "1")], some "payload"⟩ {}
    ⟨"/users/1", []⟩ ⟨⟨"/users/1", []⟩, ⟨some "GET", some "payload", []⟩⟩ 42 rfl
  have h2 := c7_body_passthrough "/users/:id" "GET" demoApi demoTransport
    (newURL "/users/:id") ⟨some [("id", "1")], none⟩ {}
    ⟨"/users/1", []⟩ ⟨⟨"/users/1", []⟩, ⟨some "GET", none, []⟩⟩ 42 rfl
  exact ⟨h1.1 "payload" rfl, h2.2 rfl⟩

/-- C8: the value of a successful invocation is exactly the registered
response transform applied to the transport's response for the call that
was made, with no further inspection by the builder. -/
theorem c8_response_mapping {P B Payload Resp R : Type} (endpoint method : String)
    (api : Api P B Payload Resp R) (transport : TransportCall Payload → Resp)
    (url : Url) (args : FetchArgs P B) (options : RequestOpts Payload)
    (u : Url) (call : TransportCall Payload) (r : R)
    (h : fetchInvoke endpoint method api transport url args options =
      Except.ok (u, call, r)) :
    r = api.response (transport call) := by
  exact (fetchInvoke_ok_inv endpoint method api transport url args options
    u call r h).2.2

/-- C8 witness: with the demo transform `n + 1` over the demo transport
response `41`, the caller receives `42`. -/
theorem c8_witness :
    (42 : Nat) = demoApi.response (demoTransport
      ⟨⟨"/users/1", []⟩, ⟨some "GET", none, []⟩⟩) := by
  exact c8_response_mapping "/users/:id" "GET" demoApi demoTransport
    (newURL "/users/:id") ⟨some [("id", "1")], none⟩ {}
    ⟨"/users/1", []⟩ ⟨⟨"/users/1", []⟩, ⟨some "GET", none, []⟩⟩ 42 rfl

/-- C9: substitution replaces only the first textual occurrence of `:key`
in the URL path: for a pathname containing the token `:k` twice (with no
earlier colon before the first occurrence), substituting the single key
`k` replaces the first occurrence by the value and leaves the second
occurrence in place as literal text, and the query is untouched. -/
theorem c9_first_occurrence_only (s₁ s₂ s₃ k v : String)
    (q : List (String × String)) (h : ':' ∉ s₁.data) :
    applyParams ⟨s₁ ++ ":" ++ k ++ s₂ ++ ":" ++ k ++ s₃, q⟩ [(k, v)] =
      ⟨s₁ ++ v ++ s₂ ++ ":" ++ k ++ s₃, q⟩ := by
  have hassoc : s₁ ++ ":" ++ k ++ s₂ ++ ":" ++ k ++ s₃ =
      s₁ ++ ":" ++ k ++ (s₂ ++ ":" ++ k ++ s₃) := by
    simp [String.append_assoc]
  have hstep : applyParams ⟨s₁ ++ ":" ++ k ++ s₂ ++ ":" ++ k ++ s₃, q⟩ [(k, v)] =
      applyParamStep ⟨s₁ ++ ":" ++ k ++ s₂ ++ ":" ++ k ++ s₃, q⟩ (k, v) := rfl
  rw [hstep, hassoc]
  rw [applyParamStep_subst _ _ _ (includesStr_at_first k s₁ (s₂ ++ ":" ++ k ++ s₃) h)]
  rw [Url.mk.injEq]
  refine ⟨?_, rfl⟩
  rw [replaceFirst_at_first k v s₁ (s₂ ++ ":" ++ k ++ s₃) h]
  simp [String.append_assoc]

/-- C9 witness: the pattern `/a/:id/b/:id` with mapping `id = 1` becomes
`/a/1/b/:id`: the second `:id` survives as a literal path segment. -/
theorem c9_witness :
    applyParams ⟨"/a/" ++ ":" ++ "id" ++ "/b/" ++ ":" ++ "id" ++ "", []⟩ [("id", "1")] =
      ⟨"/a/" ++ "1" ++ "/b/" ++ ":" ++ "id" ++ "", []⟩ ∧
    applyParams ⟨"/a/:id/b/:id", []⟩ [("id", "1")] = ⟨"/a/1/b/:id", []⟩ :=
  ⟨c9_first_occurrence_only "/a/" "/b/" "" "id" "1" [] (by decide), by decide⟩

/-- C10: a bare colon (a `:` immediately preceded by a `/` or the start of
the pattern, and immediately followed by a `/` or the end of the pattern)
is parsed as a placeholder whose name is the empty string: invocation
succeeds only when the resolved mapping contains the empty string as a
key, and otherwise the validation helper throws the missing-parameter
error listing the empty name. -/
theorem c10_bare_colon_empty_name (s₁ s₂ : String) (params : List (String × String))
    (h1 : s₁ = "" ∨ ∃ t : String, s₁ = t ++ "/")
    (h2 : s₂ = "" ∨ ∃ r : String, s₂ = "/" ++ r) :
    "" ∈ extractParams (s₁ ++ ":" ++ s₂) ∧
    (assertHasAllParams (s₁ ++ ":" ++ s₂) params = Except.ok () →
      "" ∈ keys params) ∧
    ("" ∉ keys params →
      assertHasAllParams (s₁ ++ ":" ++ s₂) params =
        Except.error (notFoundMessage (missingParams (s₁ ++ ":" ++ s₂) params)
          (s₁ ++ ":" ++ s₂)) ∧
      "" ∈ missingParams (s₁ ++ ":" ++ s₂) params) ∧
    (∀ (P B Payload Resp R : Type) (method : String) (api : Api P B Payload Resp R)
      (transport : TransportCall Payload → Resp) (url : Url) (args : FetchArgs P B)
      (options : RequestOpts Payload), resolvedParams api args = params →
      (fetchInvoke (s₁ ++ ":" ++ s₂) method api transport url args options).isOk = true →
      "" ∈ keys params) := by
  have hmem := mem_extractParams_bare_colon s₁ s₂ h1 h2
  have hproto : "" ∉ objectPrototypeKeys := by decide
  refine ⟨hmem, ?_, ?_, ?_⟩
  · intro hok
    rcases (assertHasAllParams_ok_iff _ _).mp hok "" hmem with hc | hc
    · exact hc
    · exact absurd hc hproto
  · intro hnk
    have hno : ¬ ∀ k ∈ extractParams (s₁ ++ ":" ++ s₂),
        k ∈ keys params ∨ k ∈ objectPrototypeKeys := by
      intro hall
      rcases hall "" hmem with hc | hc
      · exact hnk hc
      · exact hproto hc
    exact ⟨assertHasAllParams_error _ _ hno,
      (mem_missingParams _ _ _).mpr ⟨hmem, hnk, hproto⟩⟩
  · intro P B Payload Resp R method api transport url args options hres hok
    rw [fetchInvoke_isOk_iff, hres] at hok
    rcases hok "" hmem with hc | hc
    · exact hc
    · exact absurd hc hproto

/-- C10 witness: at the pattern `/:toString/:` with an empty mapping the
validation helper throws the error naming only the empty placeholder (the
`toString` placeholder passes the `in` test via `Object.prototype` and is
not listed). -/
theorem c10_witness :
    "" ∈ extractParams ("/:toString/" ++ ":" ++ "") ∧
    assertHasAllParams ("/:toString/" ++ ":" ++ "") [] =
      Except.error "\"\" not found in endpoint: /:toString/:" := by
  have h := c10_bare_colon_empty_name "/:toString/" "" []
    (Or.inr ⟨"/:toString", by decide⟩) (Or.inl rfl)
  refine ⟨h.1, ?_⟩
  rw [(h.2.2.1 (by decide)).1]
  rfl

end Karanofetch
